import Mathlib

/-!
Shallow embedding of the data-processing core of the repository
(streaming CSV/TSV ingest, IndexedDB-backed row store, filter engine,
sampling/statistics engine, keyword resampling engine) and proofs about
the frozen specification claims.

Conventions of the embedding:
* machine floats are modelled as exact rationals (`ℚ`); IEEE-754
  finiteness of a parsed decimal literal is decided by the exact
  round-to-nearest overflow threshold `2^1024 - 2^970`;
* JavaScript strings are Lean `String`s, manipulated through their
  character lists; case folding and whitespace handling are the ASCII
  fragments of the JS operations (all inputs in the claims are ASCII);
* the IndexedDB store is a list of rows in store (cursor) order;
* `Math.random`-driven choices are oracles passed as parameters: a
  permutation-producing function for the two shuffles (JS `sort` with a
  random comparator always returns some permutation of its input) and an
  index oracle for the with-repetition draws.
-/

namespace DataProc

/-! ### JS string primitives -/

/-- `\w` of a JS regular expression: ASCII letters, digits, underscore. -/
def isWordChar (c : Char) : Bool := c.isAlphanum || c == '_'

/-- `String.prototype.toLowerCase` (ASCII fragment). -/
def jsLower (s : String) : String := ⟨s.data.map Char.toLower⟩

/-- `String.prototype.trim` (ASCII whitespace fragment). -/
def jsTrim (s : String) : String :=
  ⟨((s.data.dropWhile Char.isWhitespace).reverse.dropWhile Char.isWhitespace).reverse⟩

/-- State-machine token counter: number of maximal non-whitespace runs.
Equivalent to the source's `text.trim().split(/\s+/).filter(w => w.length > 0).length`. -/
def countWordsAux : List Char → Bool → Nat
  | [], _ => 0
  | c :: cs, inTok =>
    if c.isWhitespace then countWordsAux cs false
    else (if inTok then 0 else 1) + countWordsAux cs true

/-- `countWords` of `FileUpload.tsx` (also inlined in `DataVisualization.tsx`):
whitespace-delimited token count of a text. -/
def countWords (s : String) : Nat := countWordsAux s.data false

/-- `String.prototype.includes`: raw substring containment. -/
def containsSub (hay needle : String) : Bool :=
  (List.range (hay.data.length + 1)).any
    (fun i => (hay.data.drop i).take needle.data.length == needle.data)

/-! ### Data model: typed cells and rows -/

/-- A stored cell value: the source stores either a JS number or a string. -/
inductive TypedValue where
  | num (q : ℚ)
  | str (s : String)
deriving DecidableEq, Repr

/-- A stored row: mandatory non-empty `id` plus an ordered mapping from
column name to typed value (JS object key insertion order). -/
structure DataRow where
  id : String
  cells : List (String × TypedValue)
deriving DecidableEq, Repr

/-- Reading `row[key]` on the JS row object: `id` is a key of the object. -/
def rowGet (row : DataRow) (key : String) : Option TypedValue :=
  if key = "id" then some (.str row.id)
  else (row.cells.find? (fun p => p.1 == key)).map (·.2)

/-- JS object property write: update in place (keeping key order) or append. -/
def setVal (cells : List (String × TypedValue)) (k : String) (v : TypedValue) :
    List (String × TypedValue) :=
  if cells.any (fun p => p.1 == k) then
    cells.map (fun p => if p.1 == k then (k, v) else p)
  else cells ++ [(k, v)]

/-! ### `parseFloat` and ingest cell classification -/

/-- Value of a list of decimal digit characters. -/
def digitsVal (ds : List Char) : Nat := ds.foldl (fun a c => a * 10 + (c.toNat - 48)) 0

/-- Result of JS `parseFloat`: NaN, a signed infinity, or a numeric value
(modelled exactly as a rational; rounding to binary64 does not affect any
claim, which only depend on NaN-ness and finiteness of the result). -/
inductive JsFloat where
  | nan
  | inf (neg : Bool)
  | val (q : ℚ)
deriving DecidableEq, Repr

/-- Exponent digits after `e`/`E` and a sign: an empty digit run makes the
whole exponent part invalid (it is not consumed, as in JS — `orig` is
returned as the remainder). -/
def parseExpDigits (sign : Int) (orig u : List Char) : Int × List Char :=
  match u.span Char.isDigit with
  | ([], _) => (0, orig)
  | (eds, rest) => (sign * (digitsVal eds : Int), rest)

/-- Optional exponent part `e[+|-]digits` of a decimal literal. -/
def parseExp (l : List Char) : Int × List Char :=
  match l with
  | c :: t =>
    if c == 'e' || c == 'E' then
      match t with
      | '-' :: u => parseExpDigits (-1) l u
      | '+' :: u => parseExpDigits 1 l u
      | _ => parseExpDigits 1 l t
    else (0, l)
  | [] => (0, l)

/-- Assemble the parsed value `sign * ds1.ds2 * 10^e` as an exact rational
and consume a valid exponent suffix of `r2`. -/
def finishNum (neg : Bool) (ds1 ds2 r2 : List Char) : JsFloat × List Char :=
  match parseExp r2 with
  | (e, rest) =>
    let sign : Int := if neg then -1 else 1
    let m : Nat := digitsVal ds1 * 10 ^ ds2.length + digitsVal ds2
    match e with
    | .ofNat n => (.val (mkRat (sign * ((m * 10 ^ n : Nat) : Int)) (10 ^ ds2.length)), rest)
    | .negSucc n => (.val (mkRat (sign * (m : Int)) (10 ^ (ds2.length + (n + 1)))), rest)

/-- Core of `parseFloat`: parse the longest valid numeric prefix of a
character list (after the sign), returning the value and the unconsumed
rest.  Handles `Infinity`, optional integer part, optional fraction,
optional exponent (an incomplete exponent suffix is not consumed, as in
JS). -/
def parseFloatCore (neg : Bool) (l : List Char) : JsFloat × List Char :=
  if l.take 8 = "Infinity".data then (.inf neg, l.drop 8)
  else
    match l.span Char.isDigit with
    | (ds1, r1) =>
      match r1 with
      | '.' :: t =>
        (match t.span Char.isDigit with
         | (ds2, r2) =>
           if ds1 = [] ∧ ds2 = [] then (.nan, l) else finishNum neg ds1 ds2 r2)
      | _ => if ds1 = [] then (.nan, l) else finishNum neg ds1 [] r1

/-- JS `parseFloat(s)` together with the unconsumed remainder of the input:
skip leading whitespace, read an optional sign, then the numeric prefix. -/
def jsParseFloatRest (s : String) : JsFloat × List Char :=
  let l := s.data.dropWhile Char.isWhitespace
  match l with
  | '-' :: r => parseFloatCore true r
  | '+' :: r => parseFloatCore false r
  | _ => parseFloatCore false l

/-- JS `parseFloat(s)`. -/
def jsParseFloat (s : String) : JsFloat := (jsParseFloatRest s).1

/-- Smallest magnitude at which round-to-nearest-even binary64 overflows to
infinity: `2^1024 - 2^970`.  A parsed decimal value is a finite float iff
its magnitude is strictly below this bound. -/
def maxFiniteBound : ℕ := 2 ^ 1024 - 2 ^ 970

/-- JS `isFinite` applied to the binary64 rounding of the exact value `q`:
`|q| < maxFiniteBound`, phrased on the numerator and denominator so it is
kernel-computable. -/
def isFiniteJs (q : ℚ) : Bool := q.num.natAbs < maxFiniteBound * q.den

/-- Classification result for one raw cell in `processRow`. -/
inductive CellClass where
  | numeric (q : ℚ)
  | text (s : String)
  | omitted
deriving DecidableEq, Repr

/-- The text fallback of the classifier: trim; an empty trimmed value is
omitted from the row, otherwise the trimmed string is stored. -/
def classifyText (v : String) : CellClass :=
  let sv := jsTrim v
  if sv = "" then .omitted else .text sv

/-- Cell classification of `processRow` (`FileUpload.tsx`): empty raw values
are skipped; `parseFloat` producing a non-NaN finite number stores a Numeric
cell; otherwise the trimmed text is stored when non-empty. -/
def classifyCell (v : String) : CellClass :=
  if v = "" then .omitted
  else
    match jsParseFloat v with
    | .val q => if isFiniteJs q then .numeric q else classifyText v
    | _ => classifyText v

/-- Process one `(key, value)` column of a raw record, accumulating into the
row's cell map; a text value in a `label`/`caption` column (case-insensitive)
also derives `label_word_count`, and `caption` is mirrored into `label`. -/
def processCell (acc : List (String × TypedValue)) (k v : String) :
    List (String × TypedValue) :=
  match classifyCell v with
  | .omitted => acc
  | .numeric q => setVal acc k (.num q)
  | .text sv =>
    let acc1 := setVal acc k (.str sv)
    if jsLower k = "label" ∨ jsLower k = "caption" then
      let acc2 := if jsLower k = "caption" then setVal acc1 "label" (.str sv) else acc1
      setVal acc2 "label_word_count" (.num (countWords sv))
    else acc1

/-- `processRow` of `FileUpload.tsx`: a record with a missing or empty `id`
is dropped; every other column is classified in record order. -/
def processRow (raw : List (String × String)) : Option DataRow :=
  let id := ((raw.find? (fun p => p.1 == "id")).map (·.2)).getD ""
  if id = "" then none
  else some ⟨id, (raw.filter (fun p => p.1 ≠ "id")).foldl
      (fun acc kv => processCell acc kv.1 kv.2) []⟩

/-! ### `matchesWord` (`textMatching.ts`)

The source builds the regular expression `\b<escaped keyword>\w*\b` with the
`i` flag and applies `test` to the text.  The embedding spells out the
meaning of exactly that pattern: the keyword occurs literally (escaping
makes every keyword character literal) at some position with a `\b`
boundary before it, followed by some run of `\w` characters ending at a
`\b` boundary.  The `i` flag together with the pre-lowered keyword makes
the search case-insensitive, modelled by lowering the text. -/

/-- Is the character at position `i` of `t` a word character
(positions outside the text count as non-word)? -/
def wordAt (t : List Char) (i : Nat) : Bool :=
  match t.drop i with
  | [] => false
  | c :: _ => isWordChar c

/-- JS regex `\b` at position `i` of `t`: exactly one of the adjacent
positions holds a word character. -/
def boundaryAt (t : List Char) (i : Nat) : Bool :=
  (if i = 0 then false else wordAt t (i - 1)) != wordAt t i

/-- One candidate match of `\b kw \w* \b` starting at position `i` of `t`. -/
def matchAt (t kw : List Char) (i : Nat) : Bool :=
  boundaryAt t i && (t.drop i).take kw.length == kw &&
    (List.range (t.length - (i + kw.length) + 1)).any (fun j =>
      ((t.drop (i + kw.length)).take j).all isWordChar &&
        boundaryAt t (i + kw.length + j))

/-- `matchesWord` of `textMatching.ts`: empty text or empty (after lowering
and trimming) keyword never match; otherwise test `\b<kw>\w*\b` (`i` flag)
against the text. -/
def matchesWord (text keyword : String) : Bool :=
  if text = "" || keyword = "" then false
  else
    let kw := jsTrim (jsLower keyword)
    if kw = "" then false
    else
      let t := (jsLower text).data
      (List.range (t.length + 1)).any (fun i => matchAt t kw.data i)

/-! ### Row store (`indexedDB.ts`)

The store is modelled by its cursor order: a list of rows.  Uniqueness of
`id` (the store's key path) appears as a `Nodup` hypothesis where needed. -/

/-- `batchReadData(offset, limit)`: cursor scan skipping `offset` rows and
collecting at most `limit`. -/
def batchReadData (store : List DataRow) (offset limit : Nat) : List DataRow :=
  (store.drop offset).take limit

/-- `filterData(filterFn)`: full cursor scan collecting the rows accepted by
the predicate, in store order. -/
def filterData (store : List DataRow) (filterFn : DataRow → Bool) : List DataRow :=
  store.filter filterFn

/-- Sequentially issue the writes of one batch; the first failing write
rejects with its own error. -/
def writeRows (write : DataRow → Except String Unit) : List DataRow → Except String Unit
  | [] => .ok ()
  | r :: rs =>
    match write r with
    | .error e => .error e
    | .ok _ => writeRows write rs

/-- The batch loop of `batchWriteData`: slice `batchSize` rows, write them,
recurse on the rest; any error aborts the whole call with that error.
(The JS loop makes progress only for a positive `batchSize`; every caller
passes 5000 or the default 10000, modelled by forcing a stride of at least
one.) -/
def batchWriteGo (write : DataRow → Except String Unit) (batchSize : Nat) :
    List DataRow → Except String Unit
  | [] => .ok ()
  | d :: rest =>
    let k := max 1 batchSize
    match writeRows write ((d :: rest).take k) with
    | .error e => .error e
    | .ok _ => batchWriteGo write batchSize ((d :: rest).drop k)
termination_by data => data.length
decreasing_by
  simp only [List.length_drop, List.length_cons]
  omega

/-- `batchWriteData(data, batchSize = 10000)` over a write oracle: resolves
with `()` or rejects with the first write error (the rejection value is the
raw store error only). -/
def batchWriteData (data : List DataRow) (write : DataRow → Except String Unit)
    (batchSize : Nat := 10000) : Except String Unit :=
  batchWriteGo write batchSize data

/-- The error of the first failing row write, if any. -/
def firstWriteError (data : List DataRow) (write : DataRow → Except String Unit) :
    Option String :=
  data.findSome? (fun r => match write r with | .error e => some e | .ok _ => none)

/-! ### App wiring (`App.tsx`) and the sampling engine
(`DataVisualization.tsx`) -/

/-- `handleDataLoaded` keeps only a sample in memory:
`batchReadData(0, Math.min(100000, count))` — the first (at most) 100,000
rows in store order. -/
def appSampleData (store : List DataRow) : List DataRow :=
  batchReadData store 0 (min 100000 store.length)

/-- `getFullData` of `App.tsx`: for stores of at most 100,000 rows it reads
them all; above that it returns the in-memory sample. -/
def getFullData (store : List DataRow) : List DataRow :=
  if store.length ≤ 100000 then batchReadData store 0 store.length
  else appSampleData store

/-- `getFullDataForResampling` of `DataResampling.tsx`: below the threshold
it uses the `data` prop (which `App.tsx` wires to its sample state);
above it, it calls `onNeedFullData` = `getFullData`. -/
def getFullDataForResampling (store : List DataRow) : List DataRow :=
  if store.length ≤ 100000 then appSampleData store
  else getFullData store

/-- A placeholder row for (never-taken) out-of-bounds JS index reads. -/
def dRow : DataRow := ⟨"", []⟩

/-- The `sampleData` memo of `DataVisualization.tsx`: at most 100,000 rows
of its input; above the threshold, the loop
`for (i = 0; i < n; i += step) { push(data[i]); if (length ≥ 100000) break }`
with `step = ceil(n / 100000)` visits exactly the indices
`0, step, 2·step, …` below `n` — `ceil(n / step)` of them — truncated to
the first 100,000. -/
def sampleDataViz (data : List DataRow) : List DataRow :=
  if data.length ≤ 100000 then data
  else
    let step := (data.length + 100000 - 1) / 100000
    ((((List.range ((data.length + step - 1) / step)).map (fun j => j * step)).take
        100000).map (fun i => data.getD i dRow))

/-- The extreme (longest- or shortest-label) rows located by
`DataVisualization.tsx`, reported with trimmed text, word count and id. -/
structure ExtremeLabel where
  label : String
  wordCount : Nat
  id : String
deriving DecidableEq, Repr

/-- One step of the longest/shortest scan: a row whose column value is a
non-empty string with a non-empty trimmed form updates `longest` on a
strictly larger word count and `shortest` on a strictly smaller one. -/
def updExtremes (col : String) (acc : Option ExtremeLabel × Option ExtremeLabel)
    (row : DataRow) : Option ExtremeLabel × Option ExtremeLabel :=
  match rowGet row col with
  | some (.str tv) =>
    if tv ≠ "" then
      let lab := jsTrim tv
      if lab ≠ "" then
        let wc := countWords lab
        (match acc.1 with
         | none => some ⟨lab, wc, row.id⟩
         | some cur => if cur.wordCount < wc then some ⟨lab, wc, row.id⟩ else some cur,
         match acc.2 with
         | none => some ⟨lab, wc, row.id⟩
         | some cur => if wc < cur.wordCount then some ⟨lab, wc, row.id⟩ else some cur)
      else acc
    else acc
  | _ => acc

/-- The `longestLabel`/`shortestLabel` scan of `DataVisualization.tsx` over
the rows it is given (its `data` prop), in order. -/
def scanExtremes (data : List DataRow) (col : String) :
    Option ExtremeLabel × Option ExtremeLabel :=
  data.foldl (updExtremes col) (none, none)

/-- The extremes the running system reports: `App.tsx` renders
`DataVisualization` with `data={sampleData}`, so the scan runs over the
in-memory sample of the store. -/
def systemExtremes (store : List DataRow) (col : String) :
    Option ExtremeLabel × Option ExtremeLabel :=
  scanExtremes (appSampleData store) col

/-! ### Filter engine (`DataFilter.tsx`) -/

/-- A filter condition: an inclusive numeric range on a column, or a
case-insensitive include/optional-exclude substring search on a text
column (fields may be absent, as in the source's optional properties). -/
inductive FilterCondition where
  | numeric (feature : String) (min? max? : Option ℚ)
  | text (feature : String) (textSearch : Option String)
      (excludeTextSearch : Option String)
deriving DecidableEq, Repr

/-- The per-condition predicate inside `handleApplyFilter`.  A numeric
condition requires a stored numeric value inside `[min ?? 0, max ?? 0]`
(a missing or non-numeric value fails).  A text condition requires a
non-empty stored string containing the include keyword and not containing
the exclude keyword (case-folded raw substring containment). -/
def evalCondition (c : FilterCondition) (row : DataRow) : Bool :=
  match c with
  | .numeric feature mn mx =>
    (match rowGet row feature with
     | some (.num v) => decide (mn.getD 0 ≤ v ∧ v ≤ mx.getD 0)
     | _ => false)
  | .text feature search exclude =>
    (match rowGet row feature with
     | some (.str tv) =>
       if tv = "" then false
       else
         let tl := jsLower tv
         let sl := jsLower (search.getD "")
         let el := jsLower (exclude.getD "")
         (if sl = "" then true else containsSub tl sl) &&
           (if el = "" then true else !containsSub tl el)
     | _ => false)

/-- `handleApplyFilter`: an empty condition set produces an empty result
without scanning; otherwise a full cursor scan keeps the rows satisfying
every condition (conjunction). -/
def applyFilter (conditions : List FilterCondition) (store : List DataRow) :
    List DataRow :=
  if conditions = [] then []
  else filterData store (fun row => conditions.all (fun c => evalCondition c row))

/-! ### Resampling engine (`DataResampling.tsx`) -/

/-- A validated resample condition (`maxCount` already parsed and checked
positive by `handleResample`'s validation). -/
structure ResampleCondition where
  keyword : String
  column : String
  target : Nat
deriving DecidableEq, Repr

/-- Does a row match a resample condition: its column holds a non-empty
string matched by `matchesWord`? -/
def matchRow (c : ResampleCondition) (row : DataRow) : Bool :=
  match rowGet row c.column with
  | some (.str v) => v ≠ "" && matchesWord v c.keyword
  | _ => false

/-- The grouping pass of `handleResample`: conditions in order, each
scanning the full input; a row whose id was already claimed (by an earlier
condition, or an earlier row with the same id) is not claimed again.
Returns the per-condition groups and the final claimed-id list. -/
def collectGroups (fullData : List DataRow) :
    List ResampleCondition → List String → List (List DataRow) × List String
  | [], ids => ([], ids)
  | c :: cs, ids =>
    let fold := fullData.foldl
      (fun (acc : List DataRow × List String) row =>
        if matchRow c row && !(acc.2.contains row.id) then
          (acc.1 ++ [row], acc.2 ++ [row.id])
        else acc)
      ([], ids)
    match collectGroups fullData cs fold.2 with
    | (groups, ids') => (fold.1 :: groups, ids')

/-- Resize one condition's claimed group to its target: a larger group is
shuffled and truncated (without repetition), a smaller one is completed by
independent draws with repetition (`pick` is the random-index oracle), an
empty group contributes nothing. -/
def resampleGroup (rows : List DataRow) (target : Nat)
    (perm : List DataRow → List DataRow) (pick : Nat → Nat) : List DataRow :=
  if rows = [] then []
  else if target < rows.length then (perm rows).take target
  else if rows.length < target then
    rows ++ (List.range (target - rows.length)).map
      (fun i => rows.getD (pick i % rows.length) dRow)
  else rows

/-- `handleResample` over the data returned by `getFullDataForResampling`:
group (first-match-wins), resize each group, append every unclaimed row
once, shuffle the result.  `perm` stands for the `sort(() => random)`
shuffles, `pick` for the with-repetition draws. -/
def handleResample (fullData : List DataRow) (conds : List ResampleCondition)
    (perm : List DataRow → List DataRow) (pick : Nat → Nat → Nat) : List DataRow :=
  match collectGroups fullData conds [] with
  | (groups, matchedIds) =>
    let resampled := ((groups.zip conds).enum.map
      (fun gc => resampleGroup gc.2.1 gc.2.2.target perm (pick gc.1))).flatten
    let withRest := resampled ++ fullData.filter (fun r => !(matchedIds.contains r.id))
    perm withRest

/-- The ids claimed by some condition during the grouping pass. -/
def claimedIds (fullData : List DataRow) (conds : List ResampleCondition) :
    List String :=
  (collectGroups fullData conds []).2

/-- The number of rows claimed by no condition. -/
def unclaimedCount (fullData : List DataRow) (conds : List ResampleCondition) : Nat :=
  (fullData.filter (fun r => !((claimedIds fullData conds).contains r.id))).length

/-! ### Ingest completion report (`FileUpload.tsx`) -/

/-- What `onDataLoaded` carries on completion — exactly the three arguments
of the source callback: the raw parsed-record count, the file kind, the
file name. -/
structure LoadReport where
  dataCount : Nat
  fileType : String
  fileName : String
deriving DecidableEq, Repr

/-- One ingest run over the parsed records of the stream: `step` increments
`rowCount` for every record and accepts the rows `processRow` keeps (in
order); `complete` fires `onDataLoaded(rowCount, kind, name)`. -/
def ingestRun (records : List (List (String × String))) (isTSV : Bool)
    (name : String) : LoadReport × List DataRow :=
  (⟨records.length, if isTSV then "tsv" else "csv", name⟩,
   records.filterMap processRow)

/-! ### Specification-side predicate for claim C3

The spec says a cell is Numeric iff "the entire cell parses losslessly as a
finite number".  This definition follows the spec's words (not the code):
the numeric parse must consume the whole cell, up to surrounding
whitespace, and the value must be finite. -/

/-- Spec reading of "the entire cell parses losslessly as a finite number":
nothing but whitespace is left after the parse and the value is finite. -/
def specEntireNumeric (v : String) : Bool :=
  match jsParseFloatRest v with
  | (.val q, rest) => isFiniteJs q && rest.all Char.isWhitespace
  | _ => false

/-! ### Concrete fixtures used by witnesses and counterexamples -/

/-- A row with a numeric id rendering and no cells. -/
def idRow (n : Nat) : DataRow := ⟨toString n, []⟩

/-- A store of `n` distinct rows in store order. -/
def bigStore (n : Nat) : List DataRow := (List.range n).map idRow

/-- A row whose `label` has one word. -/
def rowA : DataRow := ⟨"a", [("label", .str "x")]⟩

/-- A row whose `label` has two words. -/
def rowB : DataRow := ⟨"b", [("label", .str "x y")]⟩

/-- 100,001 rows: 100,000 one-word labels followed by one two-word label. -/
def extStore : List DataRow := List.replicate 100000 rowA ++ [rowB]

/-- A row matched by keyword `hello` on column `label`. -/
def rcRow : DataRow := ⟨"1", [("label", .str "hello")]⟩

/-- A row whose write succeeds under `failingWrite`. -/
def rowGood : DataRow := ⟨"g", []⟩

/-- A row whose write fails under `failingWrite`. -/
def rowBad : DataRow := ⟨"bad", []⟩

/-- A store-write oracle that fails exactly on `rowBad`, with a fixed error. -/
def failingWrite : DataRow → Except String Unit :=
  fun r => if r.id = "bad" then .error "boom" else .ok ()

/-- A 2-row store with distinct ids and a numeric column `n`. -/
def store7 : List DataRow :=
  [⟨"a", [("n", .num 1)]⟩, ⟨"b", [("n", .num 2)]⟩]

/-- Numeric condition `1 ≤ n ≤ 2`. -/
def fc1 : FilterCondition := .numeric "n" (some 1) (some 2)

/-- Numeric condition `2 ≤ n ≤ 2`. -/
def fc2 : FilterCondition := .numeric "n" (some 2) (some 2)

/-- A resample condition whose keyword matches nothing in sight. -/
def rcNone : ResampleCondition := ⟨"zzz", "label", 5⟩

/-- A resample condition matching `rcRow` with target 3. -/
def rcHello : ResampleCondition := ⟨"hello", "label", 3⟩

/-! ### Shared helper lemmas -/

/-- Folding a function over `replicate` does nothing once the accumulator is
a fixed point of the step. -/
theorem foldl_replicate_fix {α β : Type} (f : β → α → β) (b : β) (a : α)
    (h : f b a = b) : ∀ n, List.foldl f b (List.replicate n a) = b := by
  intro n
  induction n with
  | zero => rfl
  | succ m ih => rw [List.replicate_succ, List.foldl_cons, h]; exact ih

/-- ASCII lowering fixes whitespace characters. -/
theorem toLower_of_isWhitespace {c : Char} (h : c.isWhitespace = true) :
    c.toLower = c := by
  simp only [Char.isWhitespace, Bool.or_eq_true, decide_eq_true_eq] at h
  rcases h with ((h | h) | h) | h <;> subst h <;> rfl

/-- Lowering then trimming an all-whitespace string yields the empty string. -/
theorem jsTrim_jsLower_of_whitespace (s : String)
    (h : ∀ c ∈ s.data, c.isWhitespace = true) : jsTrim (jsLower s) = "" := by
  have hall : ∀ c ∈ (jsLower s).data, c.isWhitespace = true := by
    intro c hc
    obtain ⟨a, ha, rfl⟩ := List.mem_map.mp hc
    rw [toLower_of_isWhitespace (h a ha)]
    exact h a ha
  have hdrop : (jsLower s).data.dropWhile Char.isWhitespace = [] := by
    exact List.dropWhile_eq_nil_iff.mpr hall
  simp [jsTrim, hdrop]

/-- `writeRows` resolves iff no row write fails, and otherwise rejects with
the first failing row's error. -/
theorem writeRows_eq (write : DataRow → Except String Unit) (l : List DataRow) :
    writeRows write l =
      match firstWriteError l write with
      | some e => .error e
      | none => .ok () := by
  induction l with
  | nil => rfl
  | cons r rs ih =>
    simp only [writeRows, firstWriteError, List.findSome?_cons]
    cases hw : write r with
    | error e => rfl
    | ok u => simpa [firstWriteError] using ih

/-- The batch loop of `batchWriteData` behaves like a single pass: resolve
iff every write resolves, else reject with the first failing row's error. -/
theorem batchWriteGo_eq (write : DataRow → Except String Unit) (bs : Nat)
    (data : List DataRow) :
    batchWriteGo write bs data =
      match firstWriteError data write with
      | some e => .error e
      | none => .ok () := by
  have H : ∀ n (data : List DataRow), data.length = n →
      batchWriteGo write bs data =
        match firstWriteError data write with
        | some e => Except.error e
        | none => Except.ok () := by
    intro n
    induction n using Nat.strong_induction_on with
    | _ n ih =>
      intro data hn
      cases data with
      | nil => simp [batchWriteGo, firstWriteError]
      | cons d rest =>
        rw [batchWriteGo, writeRows_eq]
        have hsplit : firstWriteError (d :: rest) write =
            match firstWriteError ((d :: rest).take (max 1 bs)) write with
            | some e => some e
            | none => firstWriteError ((d :: rest).drop (max 1 bs)) write := by
          rw [show firstWriteError (d :: rest) write =
              firstWriteError (((d :: rest).take (max 1 bs)) ++
                ((d :: rest).drop (max 1 bs))) write by rw [List.take_append_drop]]
          simp only [firstWriteError, List.findSome?_append]
          cases ((d :: rest).take (max 1 bs)).findSome?
              (fun r => match write r with | .error e => some e | .ok _ => none) <;> rfl
        rw [hsplit]
        cases hfe : firstWriteError ((d :: rest).take (max 1 bs)) write with
        | some e => rfl
        | none =>
          have hlt : ((d :: rest).drop (max 1 bs)).length < n := by
            subst hn
            simp only [List.length_drop, List.length_cons]
            omega
          exact ih _ hlt _ rfl
  exact H data.length data rfl

/-! ### Claim theorems -/

set_option maxRecDepth 40000

/-- C8: `matchesWord` matches a keyword as a whole word or trailing-inflected
form, case-insensitively: it accepts "cry" in "The boy is crying" and in
"Crying", and rejects it in "acrylic paint". -/
theorem C8_word_match_boundary :
    matchesWord "The boy is crying" "cry" = true ∧
    matchesWord "Crying" "cry" = true ∧
    matchesWord "acrylic paint" "cry" = false := by
  decide

/-- C10: `matchesWord` returns false when the text is empty or when the
keyword is empty or consists only of whitespace; no match is ever reported
against an absent keyword. -/
theorem C10_empty_inputs_never_match (text keyword : String)
    (h : text = "" ∨ keyword = "" ∨ ∀ c ∈ keyword.data, c.isWhitespace = true) :
    matchesWord text keyword = false := by
  unfold matchesWord
  rcases h with h | h | h
  · subst h; simp
  · subst h; simp
  · by_cases ht : text = ""
    · simp [ht]
    · by_cases hk : keyword = ""
      · simp [hk]
      · have hkw : jsTrim (jsLower keyword) = "" := jsTrim_jsLower_of_whitespace keyword h
        simp [ht, hk, hkw]

/-- Witness for C10 at concrete inputs: a whitespace-only keyword never
matches a non-empty text. -/
theorem C10_empty_inputs_never_match_witness :
    matchesWord "some text" "  " = false :=
  C10_empty_inputs_never_match "some text" "  " (Or.inr (Or.inr (by decide)))

/-- C3 fails as stated: the cell "12abc" does not parse entirely as a number
(the spec-side predicate rejects it), yet ingest stores it as Numeric 12,
because `parseFloat` accepts a numeric prefix. -/
theorem C3_counterexample :
    specEntireNumeric "12abc" = false ∧
    processRow [("id", "a"), ("x", "12abc")] =
      some ⟨"a", [("x", TypedValue.num 12)]⟩ := by
  decide

/-- C3 amended: a cell is stored as Numeric exactly when `parseFloat`'s
longest-numeric-prefix parse yields a finite number (not when the entire
cell parses); any other cell that is non-empty after trimming is stored as
trimmed Text, and the rest are omitted.  Cells that do entirely parse as a
finite number are still stored as Numeric. -/
theorem C3_amended_prefix_parse (id k v : String) (hid : id ≠ "")
    (hk : k ≠ "id") (hk1 : jsLower k ≠ "label") (hk2 : jsLower k ≠ "caption") :
    (processRow [("id", id), (k, v)] =
      some ⟨id,
        match classifyCell v with
        | .omitted => []
        | .numeric q => [(k, TypedValue.num q)]
        | .text s => [(k, TypedValue.str s)]⟩) ∧
    (∀ q, classifyCell v = .numeric q ↔
      (jsParseFloat v = .val q ∧ isFiniteJs q = true)) ∧
    (classifyCell v = .text (jsTrim v) ↔
      ((∀ q, jsParseFloat v = .val q → isFiniteJs q = false) ∧ jsTrim v ≠ "")) ∧
    (specEntireNumeric v = true → ∃ q, classifyCell v = .numeric q) := by
  refine ⟨?_, ?_, ?_, ?_⟩
  · have hkbeq : ((k : String) == "id") = false := by simpa using hk
    cases hc : classifyCell v with
    | omitted => simp [processRow, List.find?, List.filter, hid, hk, hkbeq,
        processCell, hc]
    | numeric q => simp [processRow, List.find?, List.filter, hid, hk, hkbeq,
        processCell, hc, setVal]
    | text s => simp [processRow, List.find?, List.filter, hid, hk, hkbeq,
        processCell, hc, setVal, hk1, hk2]
  · intro q
    unfold classifyCell
    by_cases hv : v = ""
    · simp [hv, jsParseFloat, jsParseFloatRest, parseFloatCore]
    · rw [if_neg hv]
      cases hp : jsParseFloat v with
      | val q' =>
        by_cases hf : isFiniteJs q' = true
        · simp only [hf, if_true]
          constructor
          · rintro h
            cases h
            exact ⟨rfl, hf⟩
          · rintro ⟨hq, _⟩
            cases hq
            rfl
        · simp only [Bool.not_eq_true] at hf
          simp only [hf, Bool.false_eq_true, if_false]
          unfold classifyText
          constructor
          · intro h
            by_cases ht : jsTrim v = "" <;> simp [ht] at h
          · rintro ⟨hq, hfin⟩
            cases hq
            rw [hf] at hfin
            cases hfin
      | nan =>
        unfold classifyText
        constructor
        · intro h
          by_cases ht : jsTrim v = "" <;> simp [ht] at h
        · rintro ⟨hq, _⟩
          cases hq
      | inf b =>
        unfold classifyText
        constructor
        · intro h
          by_cases ht : jsTrim v = "" <;> simp [ht] at h
        · rintro ⟨hq, _⟩
          cases hq
  · unfold classifyCell
    by_cases hv : v = ""
    · subst hv
      constructor
      · intro h
        simp at h
      · rintro ⟨_, ht⟩
        exact absurd (by decide) ht
    · rw [if_neg hv]
      cases hp : jsParseFloat v with
      | val q' =>
        by_cases hf : isFiniteJs q' = true
        · simp only [hf, if_true]
          constructor
          · intro h
            cases h
          · rintro ⟨hq, _⟩
            have := hq q' rfl
            rw [hf] at this
            cases this
        · simp only [Bool.not_eq_true] at hf
          simp only [hf, Bool.false_eq_true, if_false]
          unfold classifyText
          by_cases ht : jsTrim v = ""
          · simp [ht]
          · simp only [ht, if_false]
            constructor
            · intro _
              refine ⟨?_, ht⟩
              intro q hq
              cases hq
              exact hf
            · intro _
              trivial
      | nan =>
        unfold classifyText
        by_cases ht : jsTrim v = ""
        · simp [ht]
        · simp only [ht, if_false]
          constructor
          · intro _
            refine ⟨?_, ht⟩
            intro q hq
            cases hq
          · intro _
            trivial
      | inf b =>
        unfold classifyText
        by_cases ht : jsTrim v = ""
        · simp [ht]
        · simp only [ht, if_false]
          constructor
          · intro _
            refine ⟨?_, ht⟩
            intro q hq
            cases hq
          · intro _
            trivial
  · intro hs
    unfold specEntireNumeric at hs
    unfold classifyCell
    cases hp : jsParseFloatRest v with
    | mk jf rest =>
      rw [hp] at hs
      cases jf with
      | val q =>
        simp only [Bool.and_eq_true] at hs
        have hv : v ≠ "" := by
          intro hveq
          rw [hveq] at hp
          have hemp : jsParseFloatRest "" = (JsFloat.nan, []) := by decide
          rw [hemp] at hp
          simp at hp
        rw [if_neg hv]
        have hpf : jsParseFloat v = .val q := by
          unfold jsParseFloat
          rw [hp]
        refine ⟨q, ?_⟩
        simp only [hpf]
        simp [hs.1]
      | nan => cases hs
      | inf b => cases hs

/-- Witness for C3 amended at a concrete cell: "7pt" is stored as Numeric 7. -/
theorem C3_amended_prefix_parse_witness :
    processRow [("id", "a"), ("x", "7pt")] =
      some ⟨"a", [("x", TypedValue.num 7)]⟩ :=
  ((C3_amended_prefix_parse "a" "x" "7pt" (by decide) (by decide) (by decide)
    (by decide)).1).trans (by decide)

/-- C5: on completion the pipeline reports the raw parsed-record count —
including records dropped for a missing/empty id — not the accepted row
count, and the report carries no column list (the `onDataLoaded` callback
has exactly three arguments).  Here a 2-record stream with one id-less
record completes with a reported count of 2 while only 1 row was accepted. -/
theorem C5_reported_count_includes_dropped :
    (ingestRun [[("id", "a")], [("id", "")]] true "f.tsv").1 =
      ⟨2, "tsv", "f.tsv"⟩ ∧
    ((ingestRun [[("id", "a")], [("id", "")]] true "f.tsv").2).length = 1 := by
  decide

/-- C1: the resampling engine does NOT evaluate conditions against the whole
dataset once the store exceeds the 100,000-row cap: `getFullData` returns
the in-memory sample, so for a store of 100,001 rows the data handed to
`handleResample` has only 100,000 rows. -/
theorem C1_resampling_reads_capped_sample :
    (getFullDataForResampling (bigStore 100001)).length = 100000 ∧
    (bigStore 100001).length = 100001 := by
  have hlen : (bigStore 100001).length = 100001 := by
    simp [bigStore]
  refine ⟨?_, hlen⟩
  unfold getFullDataForResampling getFullData appSampleData batchReadData
  simp [hlen]

/-- C2 fails as stated: for an input of 100,001 rows the stride is 2 and
the sample has ceil(100001 / 2) = 50,001 rows, not exactly 100,000. -/
theorem C2_counterexample :
    100000 < (bigStore 100001).length ∧
    (sampleDataViz (bigStore 100001)).length ≠ 100000 := by
  have hlen : (bigStore 100001).length = 100001 := by
    simp [bigStore]
  refine ⟨by rw [hlen]; norm_num, ?_⟩
  unfold sampleDataViz
  rw [hlen]
  norm_num

/-- C2 amended: at or below 100,000 rows the sample is the full input;
above, with stride = ceil(n / 100000), the sample holds
min(100000, ceil(n / stride)) rows — at most, not exactly, 100,000 — and
its j-th row is the input's (j·stride)-th row. -/
theorem C2_amended_stride_sample (data : List DataRow) :
    (data.length ≤ 100000 → sampleDataViz data = data) ∧
    (100000 < data.length →
      (sampleDataViz data).length =
        min 100000 ((data.length + ((data.length + 100000 - 1) / 100000) - 1) /
          ((data.length + 100000 - 1) / 100000)) ∧
      ∀ j : Nat, j < (sampleDataViz data).length →
        (sampleDataViz data)[j]? =
          some (data.getD (j * ((data.length + 100000 - 1) / 100000)) dRow)) := by
  constructor
  · intro h
    unfold sampleDataViz
    rw [if_pos h]
  · intro h
    have hnotle : ¬ data.length ≤ 100000 := by omega
    have hlen : (sampleDataViz data).length =
        min 100000 ((data.length + ((data.length + 100000 - 1) / 100000) - 1) /
          ((data.length + 100000 - 1) / 100000)) := by
      unfold sampleDataViz
      rw [if_neg hnotle]
      simp [List.length_take, List.length_map, List.length_range]
    refine ⟨hlen, ?_⟩
    intro j hj
    rw [hlen] at hj
    have hj1 : j < 100000 := lt_of_lt_of_le hj (min_le_left _ _)
    have hj2 : j < (data.length + ((data.length + 100000 - 1) / 100000) - 1) /
        ((data.length + 100000 - 1) / 100000) :=
      lt_of_lt_of_le hj (min_le_right _ _)
    unfold sampleDataViz
    rw [if_neg hnotle]
    simp only [List.getElem?_map, List.getElem?_take, hj1, if_pos, List.getElem?_range, hj2]
    rfl

/-- Witness for C2 amended: a 3-row input is below the cap, so the sample is
the input itself. -/
theorem C2_amended_stride_sample_witness :
    sampleDataViz (bigStore 3) = bigStore 3 :=
  (C2_amended_stride_sample (bigStore 3)).1 (by simp [bigStore])

/-- C6 fails as stated: the longest/shortest word-count rows are located by
scanning only the rows handed to the visualization component — the capped
100,000-row sample — so a 100,001-row store whose last row uniquely has the
most words reports a different row than a full scan would. -/
theorem C6_counterexample :
    systemExtremes extStore "label" ≠ scanExtremes extStore "label" := by
  have hsample : appSampleData extStore = List.replicate 100000 rowA := by
    unfold appSampleData batchReadData extStore
    rw [List.drop_zero, List.length_append, List.length_replicate,
      show ([rowB].length) = 1 from rfl, Nat.min_eq_left (by omega),
      List.take_append_of_le_length (by rw [List.length_replicate]),
      List.take_replicate, Nat.min_self]
  have hstep : updExtremes "label"
      (some ⟨"x", 1, "a"⟩, some ⟨"x", 1, "a"⟩) rowA =
      (some ⟨"x", 1, "a"⟩, some ⟨"x", 1, "a"⟩) := by decide
  have hfirst : updExtremes "label" (none, none) rowA =
      (some ⟨"x", 1, "a"⟩, some ⟨"x", 1, "a"⟩) := by decide
  have hrepl : ∀ n, scanExtremes (List.replicate (n + 1) rowA) "label" =
      (some ⟨"x", 1, "a"⟩, some ⟨"x", 1, "a"⟩) := by
    intro n
    unfold scanExtremes
    rw [List.replicate_succ, List.foldl_cons, hfirst]
    exact foldl_replicate_fix _ _ _ hstep n
  have hsys : systemExtremes extStore "label" =
      (some ⟨"x", 1, "a"⟩, some ⟨"x", 1, "a"⟩) := by
    unfold systemExtremes
    rw [hsample]
    exact hrepl 99999
  have hfull : scanExtremes extStore "label" =
      (some ⟨"x y", 2, "b"⟩, some ⟨"x", 1, "a"⟩) := by
    unfold extStore scanExtremes
    rw [List.foldl_append]
    have : List.foldl (updExtremes "label") (none, none)
        (List.replicate 100000 rowA) = (some ⟨"x", 1, "a"⟩, some ⟨"x", 1, "a"⟩) := by
      rw [show (100000 : Nat) = 99999 + 1 by norm_num]
      exact hrepl 99999
    rw [this]
    decide
  rw [hsys, hfull]
  decide

/-- C6 amended: the extremes scan is exact exactly up to the cap — for
stores of at most 100,000 rows the system scans every stored row, so the
reported extreme rows (with id and text) are those of a full scan. -/
theorem C6_amended_extremes_below_cap (store : List DataRow) (col : String)
    (h : store.length ≤ 100000) :
    systemExtremes store col = scanExtremes store col := by
  unfold systemExtremes appSampleData batchReadData
  rw [Nat.min_eq_right h]
  simp

/-- Witness for C6 amended at a concrete 1-row store. -/
theorem C6_amended_extremes_below_cap_witness :
    systemExtremes [rowA] "label" = scanExtremes [rowA] "label" :=
  C6_amended_extremes_below_cap [rowA] "label" (by decide)

/-- C7: filtering with two conditions returns, by id, exactly the
intersection of filtering with each condition alone (store ids are unique,
as guaranteed by the store's `id` key path). -/
theorem C7_filter_conjunction (store : List DataRow) (c1 c2 : FilterCondition)
    (h : (store.map DataRow.id).Nodup) (i : String) :
    i ∈ (applyFilter [c1, c2] store).map DataRow.id ↔
      (i ∈ (applyFilter [c1] store).map DataRow.id ∧
       i ∈ (applyFilter [c2] store).map DataRow.id) := by
  have hinj := List.inj_on_of_nodup_map h
  unfold applyFilter filterData
  simp only [if_neg (by simp : ¬([c1, c2] = [])), if_neg (by simp : ¬([c1] = [])),
    if_neg (by simp : ¬([c2] = [])), List.mem_map, List.mem_filter,
    List.all_cons, List.all_nil, Bool.and_true, Bool.and_eq_true]
  constructor
  · rintro ⟨r, ⟨hr, h1, h2⟩, rfl⟩
    exact ⟨⟨r, ⟨hr, h1⟩, rfl⟩, ⟨r, ⟨hr, h2⟩, rfl⟩⟩
  · rintro ⟨⟨r1, ⟨hr1, h1⟩, rfl⟩, ⟨r2, ⟨hr2, h2⟩, he⟩⟩
    have heq : r2 = r1 := hinj hr2 hr1 he
    subst heq
    exact ⟨r2, ⟨hr2, h1, h2⟩, rfl⟩

/-- Witness for C7 at a concrete 2-row store and two numeric conditions. -/
theorem C7_filter_conjunction_witness :
    ((store7.map DataRow.id).Nodup) ∧
    ("b" ∈ (applyFilter [fc1, fc2] store7).map DataRow.id ↔
      ("b" ∈ (applyFilter [fc1] store7).map DataRow.id ∧
       "b" ∈ (applyFilter [fc2] store7).map DataRow.id)) :=
  ⟨by decide, C7_filter_conjunction store7 fc1 fc2 (by decide) "b"⟩

/-- C9 fails as stated: a failing row write rejects the whole call with the
raw store error only — two batches in which different numbers of rows
(0 resp. 1) were durably written before the failure reject with the very
same value, so the caller cannot learn the written count from the error. -/
theorem C9_counterexample :
    ([rowBad].takeWhile (fun r => match failingWrite r with
      | .ok _ => true | .error _ => false)).length = 0 ∧
    ([rowGood, rowBad].takeWhile (fun r => match failingWrite r with
      | .ok _ => true | .error _ => false)).length = 1 ∧
    batchWriteData [rowBad] failingWrite =
      batchWriteData [rowGood, rowBad] failingWrite := by
  refine ⟨by decide, by decide, ?_⟩
  unfold batchWriteData
  rw [batchWriteGo_eq, batchWriteGo_eq,
    show firstWriteError [rowBad] failingWrite = some "boom" by decide,
    show firstWriteError [rowGood, rowBad] failingWrite = some "boom" by decide]

/-- C9 amended: if any individual row's write fails, the whole call fails
and the error is not silently dropped — the call rejects with the first
failing row's own error (and resolves iff no write fails); the rejection
value does not additionally carry the count of rows written. -/
theorem C9_amended_error_propagation (data : List DataRow)
    (write : DataRow → Except String Unit) (batchSize : Nat) :
    batchWriteData data write batchSize =
      match firstWriteError data write with
      | some e => Except.error e
      | none => Except.ok () :=
  batchWriteGo_eq write batchSize data

/-- The length of one resized group: an empty group contributes nothing,
any non-empty group contributes exactly the target. -/
theorem resampleGroup_length (rows : List DataRow) (target : Nat)
    (perm : List DataRow → List DataRow) (hperm : ∀ l, (perm l).Perm l)
    (pick : Nat → Nat) :
    (resampleGroup rows target perm pick).length =
      if rows.isEmpty then 0 else target := by
  unfold resampleGroup
  by_cases hr : rows = []
  · simp [hr]
  · have hEmp : rows.isEmpty = false := by
      simpa [List.isEmpty_iff] using hr
    rw [if_neg hr, hEmp]
    simp only [Bool.false_eq_true, if_false]
    by_cases h1 : target < rows.length
    · rw [if_pos h1, List.length_take, (hperm rows).length_eq,
        Nat.min_eq_left (Nat.le_of_lt h1)]
    · rw [if_neg h1]
      by_cases h2 : rows.length < target
      · rw [if_pos h2]
        rw [List.length_append, List.length_map, List.length_range]
        omega
      · rw [if_neg h2]
        omega

/-- Summing the resized-group lengths over the enumerated group/condition
pairs counts each non-empty group's target once, independent of the
enumeration offset. -/
theorem sum_resampleGroup_lengths (perm : List DataRow → List DataRow)
    (hperm : ∀ l, (perm l).Perm l) (pick : Nat → Nat → Nat) :
    ∀ (pairs : List (List DataRow × ResampleCondition)) (k : Nat),
    ((pairs.enumFrom k).map
        (fun gc => (resampleGroup gc.2.1 gc.2.2.target perm (pick gc.1)).length)).sum =
      ((pairs.filter (fun gc => !gc.1.isEmpty)).map (fun gc => gc.2.target)).sum := by
  intro pairs
  induction pairs with
  | nil => intro k; rfl
  | cons p ps ih =>
    intro k
    rw [List.enumFrom_cons, List.map_cons, List.sum_cons, List.filter_cons]
    rw [resampleGroup_length _ _ _ hperm]
    cases hp : p.1.isEmpty with
    | true =>
      simp only [hp, if_true, Bool.not_true, Bool.false_eq_true, if_false]
      rw [Nat.zero_add]
      exact ih (k + 1)
    | false =>
      simp only [hp, Bool.false_eq_true, if_false, Bool.not_false, if_true]
      rw [List.map_cons, List.sum_cons]
      exact congrArg (p.2.target + ·) (ih (k + 1))

/-- C4 fails as stated: a condition that matches no row contributes nothing
(not its target).  One unmatched row and one zero-match condition of target
5 produce 1 row, not 5 + 1. -/
theorem C4_counterexample :
    0 < rcNone.target ∧
    (handleResample [rcRow] [rcNone] id (fun _ _ => 0)).length = 1 ∧
    ([rcNone].map (fun c => c.target)).sum + unclaimedCount [rcRow] [rcNone] = 6 := by
  refine ⟨by decide, by decide, by decide⟩

/-- C4 amended: for positive targets, the resampled output's size equals
the sum of the target counts of the conditions that matched at least one
row, plus the number of rows claimed by no condition (zero-match conditions
contribute nothing). -/
theorem C4_amended_conservation (fullData : List DataRow)
    (conds : List ResampleCondition) (perm : List DataRow → List DataRow)
    (pick : Nat → Nat → Nat) (hperm : ∀ l, (perm l).Perm l)
    (hpos : ∀ c ∈ conds, 0 < c.target) :
    (handleResample fullData conds perm pick).length =
      ((((collectGroups fullData conds []).1.zip conds).filter
          (fun gc => !gc.1.isEmpty)).map (fun gc => gc.2.target)).sum +
        unclaimedCount fullData conds := by
  unfold handleResample
  cases hc : collectGroups fullData conds [] with
  | mk groups ids =>
    simp only
    rw [(hperm _).length_eq, List.length_append, List.length_flatten,
      List.map_map]
    have hsum := sum_resampleGroup_lengths perm hperm pick (groups.zip conds) 0
    simp only [show List.enum (groups.zip conds) = (groups.zip conds).enumFrom 0
      from rfl, Function.comp_def]
    rw [hsum]
    unfold unclaimedCount claimedIds
    simp only [hc]

/-- Witness for C4 amended: one row matched by one condition of target 3
yields 3 rows plus 0 unclaimed. -/
theorem C4_amended_conservation_witness :
    (handleResample [rcRow] [rcHello] id (fun _ _ => 0)).length = 3 :=
  (C4_amended_conservation [rcRow] [rcHello] id (fun _ _ => 0)
      (fun l => List.Perm.refl l) (by decide)).trans (by decide)

end DataProc
